import Mathlib

/-
Verification of the transcoder repository's policy decision engine
(src/transcoder.rs) and mirror controller dispatch (src/watcher.rs).

The Rust code is shallowly embedded: pure decision logic is translated to
executable Lean functions; the effectful transcode driver is modelled as a
function returning a record of the filesystem effects it performs, with a
Boolean oracle for the one fallible external step (the backend transcode run).
-/

namespace Transcoder

/-- Media kind of a codec, mirroring `ffmpeg::media::Type` as used by the
source (`Video`, `Audio`, `Subtitle`, and a catch-all for other kinds). -/
inductive MediaKind
  | video
  | audio
  | subtitle
  | other
deriving DecidableEq, Repr

/-- Codec description: the fields of the external codec catalog the source
consults (identity, media kind via `medium()`, encode/decode capability).
Identity equality of `ffmpeg::Codec` values is modelled as structural
equality of this record. -/
structure Codec where
  name : String
  medium : MediaKind
  can_encode : Bool
  can_decode : Bool
deriving DecidableEq, Repr

/-- One entry of the stream inventory of a probed media file: the stream
index, the result of `find_codec` on its codec id (`none` when the codec is
unknown), and the `language` metadata tag. -/
structure StreamInfo where
  index : Nat
  codec : Option Codec
  language : Option String
deriving DecidableEq, Repr

/-- Mirrors `RequiredAudio` from src/transcoder.rs. -/
structure RequiredAudio where
  language : Option String
deriving DecidableEq, Repr

/-- Mirrors `RequiredSubtitle` from src/transcoder.rs. -/
structure RequiredSubtitle where
  language : Option String
deriving DecidableEq, Repr

/-- Mirrors `RequirementType` from src/transcoder.rs. -/
inductive RequirementType
  | Video
  | Audio (req : RequiredAudio)
  | Subtitle (req : RequiredSubtitle)
deriving DecidableEq, Repr

/-- Mirrors `RequirementLevel` from src/transcoder.rs (declaration order
`All`, `AtLeastOne`, `WithOther`, `Ignore`, `Decline`). -/
inductive RequirementLevel
  | All
  | AtLeastOne
  | WithOther
  | Ignore
  | Decline
deriving DecidableEq, Repr

/-- Mirrors `Requirement` from src/transcoder.rs. -/
structure Requirement where
  what : RequirementType
  level : RequirementLevel
deriving DecidableEq, Repr

/-- Mirrors `TranscoderConfig`. The `required` field models the `BTreeSet`
of requirements listed in its sorted iteration order (see `Requirement.cmp`
below for the order the source derives). -/
structure TranscoderConfig where
  supported_formats : List String
  supported_codecs : List Codec
  required : List Requirement
  backup_symlink : Bool
deriving DecidableEq, Repr

/-- Mirrors `TranscodeTaskType`. -/
inductive TranscodeTaskType
  | Supported
  | Transcode (codec : Codec)
deriving DecidableEq, Repr

/-- Mirrors `TranscodeTask`. -/
structure TranscodeTask where
  stream_index : Nat
  action : TranscodeTaskType
deriving DecidableEq, Repr

/-- Mirrors `TranscodeTask::need_to_transcode`: true when the action is not
`Supported`. -/
def TranscodeTask.need_to_transcode (t : TranscodeTask) : Bool :=
  !(t.action == TranscodeTaskType.Supported)

/-- Mirrors `PartialEq<Stream> for RequirementType` (src/transcoder.rs
lines 721-744): a requirement matches a stream when the stream's codec is
known, the media kinds agree, and, when the requirement carries a language,
the stream's `language` metadata equals it. -/
def RequirementType.matches_stream (rt : RequirementType) (s : StreamInfo) : Bool :=
  match s.codec with
  | none => false
  | some c =>
    match rt with
    | RequirementType.Video => c.medium == MediaKind.video
    | RequirementType.Audio a =>
        c.medium == MediaKind.audio && (a.language.isNone || s.language == a.language)
    | RequirementType.Subtitle t =>
        c.medium == MediaKind.subtitle && (t.language.isNone || s.language == t.language)

/-- Mirrors `PartialEq<Stream> for Requirement`. -/
def Requirement.matches_stream (r : Requirement) (s : StreamInfo) : Bool :=
  r.what.matches_stream s

/-- Mirrors the scanning loop of `TranscodeTask::new` (lines 756-776): the
accumulator `action` starts as `none`; equality with a supported codec wins
immediately (`Supported`), otherwise the first supported codec of the same
media kind is recorded as the transcode target. -/
def find_action (c : Codec) : List Codec → Option TranscodeTaskType → Option TranscodeTaskType
  | [], action => action
  | supp :: rest, action =>
    if c = supp then
      some TranscodeTaskType.Supported
    else if action = none ∧ supp.medium = c.medium then
      find_action c rest (some (TranscodeTaskType.Transcode supp))
    else
      find_action c rest action

/-- Mirrors `TranscodeTask::new`: when the stream's codec is unknown the loop
body never runs and no task is produced; otherwise the scan result (if any)
is paired with the stream index. -/
def TranscodeTask.new (s : StreamInfo) (cfg : TranscoderConfig) : Option TranscodeTask :=
  match s.codec with
  | none => none
  | some c => (find_action c cfg.supported_codecs none).map (fun a => ⟨s.index, a⟩)

/-- Mirrors `RequirementTaks` (source spelling kept). -/
structure RequirementTaks where
  requirement : Requirement
  tasks : List TranscodeTask

/-- Mirrors `RequirementTaks::new`: one task per stream that matches the
requirement and for which `TranscodeTask::new` produces a task, in stream
order. -/
def RequirementTaks.new (cfg : TranscoderConfig) (streams : List StreamInfo)
    (r : Requirement) : RequirementTaks :=
  ⟨r, (streams.filter (fun s => r.matches_stream s)).filterMap
        (fun s => TranscodeTask.new s cfg)⟩

/-- Mirrors the loop of `RequirementTaks::need_to_transcode` (lines 700-711),
including its early returns: a non-compliant task returns true under `All`,
a compliant task returns false under `AtLeastOne`, and falling off the end
returns whether the level is `AtLeastOne`. -/
def req_loop (level : RequirementLevel) : List TranscodeTask → Bool
  | [] => decide (level = RequirementLevel.AtLeastOne)
  | t :: rest =>
    if t.need_to_transcode then
      if level = RequirementLevel.All then true else req_loop level rest
    else
      if level = RequirementLevel.AtLeastOne then false else req_loop level rest

/-- Mirrors `RequirementTaks::need_to_transcode` (lines 691-712): false when
there are no tasks or the level is `WithOther`, `Ignore` or `Decline`;
otherwise the loop decides. -/
def RequirementTaks.need_to_transcode (rt : RequirementTaks) : Bool :=
  if rt.tasks.isEmpty = true ∨ rt.requirement.level = RequirementLevel.WithOther
      ∨ rt.requirement.level = RequirementLevel.Ignore
      ∨ rt.requirement.level = RequirementLevel.Decline then
    false
  else
    req_loop rt.requirement.level rt.tasks

/-- Mirrors `MediaFileTasks`. -/
structure MediaFileTasks where
  config : TranscoderConfig
  tasks : List RequirementTaks

/-- Mirrors `MediaFileTasks::new`: one `RequirementTaks` per requirement, in
the set's iteration order. -/
def MediaFileTasks.new (cfg : TranscoderConfig) (streams : List StreamInfo) :
    MediaFileTasks :=
  ⟨cfg, cfg.required.map (fun r => RequirementTaks.new cfg streams r)⟩

/-- Mirrors `prioritize` (lines 858-873), specialised to the `String` payload
it is used with: `Some` compares by the inner order, `Some` sorts before
`None`, `None` equals `None`. -/
def prioritize (lh rh : Option String) : Ordering :=
  match lh with
  | some l =>
    match rh with
    | some r => compare l r
    | none => Ordering.lt
  | none =>
    match rh with
    | none => Ordering.eq
    | some _ => Ordering.gt

/-- Mirrors `Ord for RequiredAudio`: compares by `prioritize` on languages. -/
def RequiredAudio.cmp (a b : RequiredAudio) : Ordering :=
  prioritize a.language b.language

/-- Mirrors `Ord for RequiredSubtitle`: compares by `prioritize` on
languages. -/
def RequiredSubtitle.cmp (a b : RequiredSubtitle) : Ordering :=
  prioritize a.language b.language

/-- Mirrors the derived `Ord for RequirementType`: variant order is
`Video < Audio < Subtitle`; equal variants compare their payloads. -/
def RequirementType.cmp : RequirementType → RequirementType → Ordering
  | RequirementType.Video, RequirementType.Video => Ordering.eq
  | RequirementType.Video, _ => Ordering.lt
  | RequirementType.Audio _, RequirementType.Video => Ordering.gt
  | RequirementType.Audio a, RequirementType.Audio b => RequiredAudio.cmp a b
  | RequirementType.Audio _, RequirementType.Subtitle _ => Ordering.lt
  | RequirementType.Subtitle a, RequirementType.Subtitle b => RequiredSubtitle.cmp a b
  | RequirementType.Subtitle _, _ => Ordering.gt

/-- Discriminant of a level in its declaration order, for the derived
`Ord for RequirementLevel`. -/
def RequirementLevel.idx : RequirementLevel → Nat
  | RequirementLevel.All => 0
  | RequirementLevel.AtLeastOne => 1
  | RequirementLevel.WithOther => 2
  | RequirementLevel.Ignore => 3
  | RequirementLevel.Decline => 4

/-- Mirrors the derived `Ord for RequirementLevel`: declaration order. -/
def RequirementLevel.cmp (a b : RequirementLevel) : Ordering :=
  compare a.idx b.idx

/-- Mirrors the derived `Ord for Requirement`: lexicographic on the fields in
declaration order, `what` first and `level` second. -/
def Requirement.cmp (a b : Requirement) : Ordering :=
  match RequirementType.cmp a.what b.what with
  | Ordering.eq => RequirementLevel.cmp a.level b.level
  | o => o

/-
Paths. The source works with `std::path::Path`; the decision engine only
reads the final component's extension and the transcode driver only rewrites
it, so a path is modelled as parent directory components plus a file name.
-/

/-- Splits a character list at the LAST occurrence of `sep`, returning the
parts before and after it; `none` when `sep` does not occur. -/
def split_last (sep : Char) : List Char → Option (List Char × List Char)
  | [] => none
  | c :: rest =>
    match split_last sep rest with
    | some (b, a) => some (c :: b, a)
    | none => if c = sep then some ([], rest) else none

/-- Splits a file name into Rust's `file_stem`/`extension` pair: the split is
at the last dot, except that a name whose only dot is its first character
(such as a hidden file) has no extension. -/
def rust_split_ext (name : List Char) : List Char × Option (List Char) :=
  match split_last '.' name with
  | none => (name, none)
  | some (b, a) => if b = [] then (name, none) else (b, some a)

/-- Path model: parent directory components and the file name. -/
structure FsPath where
  dir : List String
  base : String
deriving DecidableEq, Repr

/-- Mirrors `Path::extension` on the model. -/
def FsPath.extension (p : FsPath) : Option String :=
  ((rust_split_ext p.base.toList).2).map (fun l => String.mk l)

/-- Mirrors `Path::with_extension`: the stem is kept and the extension
replaced (an empty new extension just drops the old one). -/
def FsPath.with_extension (p : FsPath) (ext : String) : FsPath :=
  let stem := (rust_split_ext p.base.toList).1
  if ext = "" then ⟨p.dir, String.mk stem⟩
  else ⟨p.dir, String.mk (stem ++ '.' :: ext.toList)⟩

/-- Lower-cases a string character by character, mirroring
`str::to_lowercase` on the ASCII extensions the source deals with. -/
def lower_str (s : String) : String :=
  String.mk (s.toList.map Char.toLower)

/-- Mirrors `get_format` (lines 920-926): the lower-cased extension of the
source path, when present. -/
def get_format (p : FsPath) : Option String :=
  p.extension.map lower_str

/-- Mirrors `MediaFileTasks::need_to_transcode` (lines 288-306): when the
source file has an extension that is not among the supported formats, the
answer is true immediately; otherwise some requirement task must require
transcoding. -/
def MediaFileTasks.need_to_transcode (m : MediaFileTasks) (src : FsPath) : Bool :=
  match get_format src with
  | some fmt =>
    if m.config.supported_formats.any (fun supp => supp == fmt) then
      m.tasks.any (fun t => t.need_to_transcode)
    else
      true
  | none => m.tasks.any (fun t => t.need_to_transcode)

/-- Output-side per-stream task, mirroring `StreamOutputTask` restricted to
the decision-relevant data: the input stream it serves and the codec it
re-encodes to (`none` means packets are copied). -/
structure StreamOutputTask where
  input_index : Nat
  transcode_to : Option Codec
deriving DecidableEq, Repr

/-- Mirrors `StreamOutputTask::new` (lines 358-408) at the decision level:
the stream is re-encoded only when its plan action is `Transcode` and its own
codec is known; in every other case its packets are copied. -/
def StreamOutputTask.new (s : StreamInfo) (task : Option TranscodeTask) :
    StreamOutputTask :=
  let encodec := task.bind (fun t =>
    match t.action with
    | TranscodeTaskType.Supported => none
    | TranscodeTaskType.Transcode c => some c)
  let need_tr := encodec.isSome && s.codec.isSome
  ⟨s.index, if need_tr then encodec else none⟩

/-- Mirrors the nested search in `MediaOutputTasks::new` (lines 316-328): the
first task of the first requirement whose task list mentions the stream
index. -/
def find_final_task (tasks : List RequirementTaks) (idx : Nat) : Option TranscodeTask :=
  match tasks with
  | [] => none
  | rt :: rest =>
    match rt.tasks.find? (fun t => t.stream_index == idx) with
    | some t => some t
    | none => find_final_task rest idx

/-- Mirrors `MediaOutputTasks::new` (lines 310-339): EVERY input stream gets
an output task, built from the first plan task that mentions it (or from no
task, in which case it is copied). -/
def MediaOutputTasks.new (tasks : MediaFileTasks) (streams : List StreamInfo) :
    List StreamOutputTask :=
  streams.map (fun s => StreamOutputTask.new s (find_final_task tasks.tasks s.index))

/-
Effect model of the transcode drivers. Filesystem primitives (`prepare_dirs`,
opening the output container) are modelled as succeeding; `backend_ok`
abstracts the result of `MediaOutputTasks::transcode`, the external backend
run. A symlink entry `(at, to)` records a link created AT the first path
pointing TO the second.
-/

/-- Record of the filesystem effects of one transcode-or-link run. -/
structure TranscodeOutcome where
  dirs_prepared : List FsPath
  output_opened : Option FsPath
  removed : List FsPath
  symlinks : List (FsPath × FsPath)
  ok : Bool
deriving DecidableEq, Repr

/-- Mirrors `TranscoderImpl<&Path> for &Path` (lines 199-207): prepare the
destination's parent directories, then symlink the destination to the
source. -/
def path_transcode (src dst : FsPath) : TranscodeOutcome :=
  { dirs_prepared := [dst], output_opened := none, removed := [],
    symlinks := [(dst, src)], ok := true }

/-- Mirrors `TranscoderImpl<(&Path, &Path)> for context::Input`
(lines 160-196): when the decision engine requires transcoding, the effective
output path replaces the destination's extension with the first supported
format (kept unchanged when the list is empty, via `get(0)`); on backend
failure the partial output is removed and, when `backup_symlink` is set, the
link branch runs against the ORIGINAL destination; otherwise the plain link
branch runs. -/
def input_transcode (cfg : TranscoderConfig) (streams : List StreamInfo)
    (src dst : FsPath) (backend_ok : Bool) : TranscodeOutcome :=
  let tasks := MediaFileTasks.new cfg streams
  if tasks.need_to_transcode src then
    let dst_p := match cfg.supported_formats.head? with
      | some ext => dst.with_extension ext
      | none => dst
    if backend_ok then
      { dirs_prepared := [dst], output_opened := some dst_p, removed := [],
        symlinks := [], ok := true }
    else if cfg.backup_symlink then
      { dirs_prepared := [dst, dst], output_opened := some dst_p,
        removed := [dst_p], symlinks := [(dst, src)], ok := false }
    else
      { dirs_prepared := [dst], output_opened := some dst_p,
        removed := [dst_p], symlinks := [], ok := false }
  else
    path_transcode src dst

/-- Does the stream get a plan entry at all? True when `TranscodeTask::new`
produces a task for it. -/
def stream_has_action (cfg : TranscoderConfig) (s : StreamInfo) : Bool :=
  (TranscodeTask.new s cfg).isSome

/-- Is the stream compliant: does `TranscodeTask::new` give it a `Supported`
action? -/
def stream_compliant (cfg : TranscoderConfig) (s : StreamInfo) : Bool :=
  match TranscodeTask.new s cfg with
  | some t => !t.need_to_transcode
  | none => false

/-- Does `TranscodeTask::new` give the stream a non-compliant (`Transcode`)
action? -/
def stream_non_compliant (cfg : TranscoderConfig) (s : StreamInfo) : Bool :=
  match TranscodeTask.new s cfg with
  | some t => t.need_to_transcode
  | none => false

/-- Mirrors `MediaFile::new` plus the dispatch in
`TranscoderImpl<&Path> for MediaFile` (lines 136-155): `probe_ok` is whether
`ffmpeg::format::input` succeeded; on probe failure the file is opaque and
the plain link branch runs unconditionally. -/
def media_file_transcode (probe_ok : Bool) (cfg : TranscoderConfig)
    (streams : List StreamInfo) (src dst : FsPath) (backend_ok : Bool) :
    TranscodeOutcome :=
  if probe_ok then input_transcode cfg streams src dst backend_ok
  else path_transcode src dst

end Transcoder

namespace Watcher

/-- Kinds of inotify events the watcher subscribes to, plus a catch-all. -/
inductive EventKind
  | create
  | movedTo
  | closeWrite
  | delete
  | movedFrom
  | other
deriving DecidableEq, Repr

/-- Action taken by one `Watcher::do_action` dispatch: skip (any of the
ignore paths), remove the destination entry, or emplace (the
transcode-or-link step) from source file to destination. -/
inductive WatchAction
  | skip
  | removeDst (p : List String)
  | emplace (src dst : List String)
deriving DecidableEq, Repr

/-- Mirrors `Path::strip_prefix` on component lists: the suffix of `f` after
the root components, when the root is a prefix of `f`. -/
def strip_root : List String → List String → Option (List String)
  | f, [] => some f
  | [], _ :: _ => none
  | x :: xs, y :: ys => if x = y then strip_root xs ys else none

/-- Mirrors `Watcher::is_dir` (lines 146-153): the metadata query result is
`some is_directory` on success and `none` on error; an error is treated as a
directory so the event gets ignored. -/
def is_dir (meta : Option Bool) : Bool :=
  match meta with
  | some b => b
  | none => true

/-- Mirrors `Watcher::do_action` (lines 75-111). `meta` is the metadata query
result for `f` (used only by create-like events); `dst_exists` is the
filesystem's answer to `Path::exists` on the computed destination. -/
def do_action (event : EventKind) (f src dst : List String) (check_exists : Bool)
    (meta : Option Bool) (dst_exists : List String → Bool) : WatchAction :=
  match strip_root f src with
  | none => WatchAction.skip
  | some suffix =>
    let d := dst ++ suffix
    if d = f then WatchAction.skip
    else if event = EventKind.delete ∨ event = EventKind.movedFrom then
      WatchAction.removeDst d
    else if event = EventKind.create ∨ event = EventKind.movedTo
        ∨ event = EventKind.closeWrite then
      if is_dir meta then WatchAction.skip
      else if dst_exists d && check_exists then WatchAction.skip
      else WatchAction.emplace f d
    else WatchAction.skip

/-- Mirrors the bootstrap walk `Watcher::check_f` (lines 119-134) at the
dispatch level: every regular file found is dispatched as a synthetic create
event with `check_exists = true`. -/
def bootstrap_actions (files : List (List String)) (src dst : List String)
    (meta : List String → Option Bool) (dst_exists : List String → Bool) :
    List WatchAction :=
  files.map (fun f => do_action EventKind.create f src dst true (meta f) dst_exists)

end Watcher

namespace Transcoder

theorem req_loop_all (ts : List TranscodeTask) :
    req_loop RequirementLevel.All ts = ts.any (fun t => t.need_to_transcode) := by
  induction ts with
  | nil => rfl
  | cons t rest ih => cases h : t.need_to_transcode <;> simp [req_loop, h, ih]

theorem req_loop_at_least_one (ts : List TranscodeTask) :
    req_loop RequirementLevel.AtLeastOne ts = ts.all (fun t => t.need_to_transcode) := by
  induction ts with
  | nil => rfl
  | cons t rest ih => cases h : t.need_to_transcode <;> simp [req_loop, h, ih]

theorem need_false_of_empty (rt : RequirementTaks) (h : rt.tasks = []) :
    rt.need_to_transcode = false := by
  simp [RequirementTaks.need_to_transcode, h]

theorem need_all_eq (rt : RequirementTaks)
    (h : rt.requirement.level = RequirementLevel.All) :
    rt.need_to_transcode = rt.tasks.any (fun t => t.need_to_transcode) := by
  cases hts : rt.tasks with
  | nil => simp [RequirementTaks.need_to_transcode, hts]
  | cons a l =>
    rw [RequirementTaks.need_to_transcode]
    rw [if_neg (by simp [hts, h]), h, hts, req_loop_all]

theorem need_alo_eq (rt : RequirementTaks)
    (h : rt.requirement.level = RequirementLevel.AtLeastOne) :
    rt.need_to_transcode
      = (!rt.tasks.isEmpty && rt.tasks.all (fun t => t.need_to_transcode)) := by
  cases hts : rt.tasks with
  | nil => simp [RequirementTaks.need_to_transcode, hts]
  | cons a l =>
    rw [RequirementTaks.need_to_transcode]
    rw [if_neg (by simp [hts, h]), h, hts, req_loop_at_least_one]
    simp

theorem need_other_false (rt : RequirementTaks)
    (h : rt.requirement.level = RequirementLevel.WithOther
      ∨ rt.requirement.level = RequirementLevel.Ignore
      ∨ rt.requirement.level = RequirementLevel.Decline) :
    rt.need_to_transcode = false := by
  rw [RequirementTaks.need_to_transcode, if_pos (Or.inr h)]

theorem stream_non_compliant_iff (cfg : TranscoderConfig) (s : StreamInfo) :
    stream_non_compliant cfg s = true
      ↔ ∃ t, TranscodeTask.new s cfg = some t ∧ t.need_to_transcode = true := by
  cases h : TranscodeTask.new s cfg <;> simp [stream_non_compliant, h]

theorem stream_compliant_iff (cfg : TranscoderConfig) (s : StreamInfo) :
    stream_compliant cfg s = true
      ↔ ∃ t, TranscodeTask.new s cfg = some t ∧ t.need_to_transcode = false := by
  cases h : TranscodeTask.new s cfg <;> simp [stream_compliant, h]

theorem new_tasks_eq (cfg : TranscoderConfig) (streams : List StreamInfo)
    (r : Requirement) :
    (RequirementTaks.new cfg streams r).tasks
      = (streams.filter (fun s => r.matches_stream s)).filterMap
          (fun s => TranscodeTask.new s cfg) := rfl

theorem new_requirement_eq (cfg : TranscoderConfig) (streams : List StreamInfo)
    (r : Requirement) :
    (RequirementTaks.new cfg streams r).requirement = r := rfl

/-- C1: for every requirement and stream inventory, the per-requirement
verdict follows the specified table: no matched stream gives false; under
`All` the verdict is true exactly when some matched stream's action is a
`Transcode` action; under `AtLeastOne` a compliant matched stream forces
false and a true verdict means no matched stream is compliant; under
`WithOther`, `Ignore` and `Decline` the verdict is always false. -/
theorem requirement_verdict_table (cfg : TranscoderConfig)
    (streams : List StreamInfo) (r : Requirement) :
    (streams.filter (fun s => r.matches_stream s) = [] →
        (RequirementTaks.new cfg streams r).need_to_transcode = false)
    ∧ (r.level = RequirementLevel.All →
        ((RequirementTaks.new cfg streams r).need_to_transcode = true
          ↔ (streams.filter (fun s => r.matches_stream s)).any
              (stream_non_compliant cfg) = true))
    ∧ (r.level = RequirementLevel.AtLeastOne →
        ((streams.filter (fun s => r.matches_stream s)).any
            (stream_compliant cfg) = true →
          (RequirementTaks.new cfg streams r).need_to_transcode = false)
        ∧ ((RequirementTaks.new cfg streams r).need_to_transcode = true →
            ∀ s ∈ streams.filter (fun s => r.matches_stream s),
              stream_compliant cfg s = false))
    ∧ ((r.level = RequirementLevel.WithOther ∨ r.level = RequirementLevel.Ignore
          ∨ r.level = RequirementLevel.Decline) →
        (RequirementTaks.new cfg streams r).need_to_transcode = false) := by
  refine ⟨?_, ?_, ?_, ?_⟩
  · intro h
    exact need_false_of_empty _ (by rw [new_tasks_eq, h]; rfl)
  · intro h
    rw [need_all_eq _ (by rw [new_requirement_eq]; exact h), new_tasks_eq]
    simp only [List.any_eq_true, List.mem_filterMap]
    constructor
    · rintro ⟨t, ⟨s, hs, hnew⟩, ht⟩
      exact ⟨s, hs, (stream_non_compliant_iff cfg s).mpr ⟨t, hnew, ht⟩⟩
    · rintro ⟨s, hs, hnc⟩
      rcases (stream_non_compliant_iff cfg s).mp hnc with ⟨t, hnew, ht⟩
      exact ⟨t, ⟨s, hs, hnew⟩, ht⟩
  · intro h
    rw [need_alo_eq _ (by rw [new_requirement_eq]; exact h), new_tasks_eq]
    constructor
    · intro hc
      rcases List.any_eq_true.mp hc with ⟨s, hs, hcs⟩
      rcases (stream_compliant_iff cfg s).mp hcs with ⟨t, hnew, ht⟩
      have hmem : t ∈ (streams.filter (fun s => r.matches_stream s)).filterMap
          (fun s => TranscodeTask.new s cfg) :=
        List.mem_filterMap.mpr ⟨s, hs, hnew⟩
      cases hall : ((streams.filter (fun s => r.matches_stream s)).filterMap
          (fun s => TranscodeTask.new s cfg)).all (fun t => t.need_to_transcode) with
      | false => simp [hall]
      | true =>
        have := List.all_eq_true.mp hall t hmem
        rw [ht] at this
        exact absurd this (by simp)
    · intro htrue s hs
      have hall : ((streams.filter (fun s => r.matches_stream s)).filterMap
          (fun s => TranscodeTask.new s cfg)).all (fun t => t.need_to_transcode) = true := by
        simp only [Bool.and_eq_true] at htrue
        exact htrue.2
      cases hcs : stream_compliant cfg s with
      | false => rfl
      | true =>
        rcases (stream_compliant_iff cfg s).mp hcs with ⟨t, hnew, ht⟩
        have hmem : t ∈ (streams.filter (fun s => r.matches_stream s)).filterMap
            (fun s => TranscodeTask.new s cfg) :=
          List.mem_filterMap.mpr ⟨s, hs, hnew⟩
        have := List.all_eq_true.mp hall t hmem
        rw [ht] at this
        exact absurd this (by simp)
  · intro h
    exact need_other_false _ (by rw [new_requirement_eq]; exact h)

/-- C1 witness: the `All` characterisation instantiated at a concrete policy
and inventory. -/
theorem requirement_verdict_table_witness :
    ((RequirementTaks.new ⟨[], [⟨"aac", MediaKind.audio, true, true⟩], [], false⟩
        [⟨0, some ⟨"mp3", MediaKind.audio, true, true⟩, none⟩]
        ⟨RequirementType.Audio ⟨none⟩, RequirementLevel.All⟩).need_to_transcode = true
      ↔ ([⟨0, some ⟨"mp3", MediaKind.audio, true, true⟩, none⟩].filter
          (fun s => Requirement.matches_stream
            ⟨RequirementType.Audio ⟨none⟩, RequirementLevel.All⟩ s)).any
          (stream_non_compliant ⟨[], [⟨"aac", MediaKind.audio, true, true⟩], [], false⟩)
          = true) :=
  (requirement_verdict_table
    ⟨[], [⟨"aac", MediaKind.audio, true, true⟩], [], false⟩
    [⟨0, some ⟨"mp3", MediaKind.audio, true, true⟩, none⟩]
    ⟨RequirementType.Audio ⟨none⟩, RequirementLevel.All⟩).2.1 rfl

/-- C8: a language-qualified audio (or subtitle) requirement sorts strictly
before the language-agnostic requirement of the same kind, whatever the two
levels are. -/
theorem language_requirement_priority_order (L : String) (l1 l2 : RequirementLevel) :
    Requirement.cmp ⟨RequirementType.Audio ⟨some L⟩, l1⟩
        ⟨RequirementType.Audio ⟨none⟩, l2⟩ = Ordering.lt
    ∧ Requirement.cmp ⟨RequirementType.Subtitle ⟨some L⟩, l1⟩
        ⟨RequirementType.Subtitle ⟨none⟩, l2⟩ = Ordering.lt :=
  ⟨rfl, rfl⟩

/-- C2 (code bug): with the language-qualified requirement `Audio(eng)` at
level `Ignore` and the language-agnostic `Audio` requirement at level `All`,
a single English mp3 audio stream (supported codecs `[aac]`, container
supported) IS transcoded: the less-specific requirement's level decides,
although the language-qualified requirement matching the stream yields
verdict false — and lowering the agnostic level to `Ignore` flips the
overall decision, so the agnostic level does affect the verdict for the
stream. -/
theorem agnostic_requirement_affects_decision :
    (MediaFileTasks.new
        ⟨["mkv"], [⟨"aac", MediaKind.audio, true, true⟩],
          [⟨RequirementType.Audio ⟨some "eng"⟩, RequirementLevel.Ignore⟩,
           ⟨RequirementType.Audio ⟨none⟩, RequirementLevel.All⟩], false⟩
        [⟨0, some ⟨"mp3", MediaKind.audio, true, true⟩, some "eng"⟩]).need_to_transcode
        ⟨[], "m.mkv"⟩ = true
    ∧ (RequirementTaks.new
        ⟨["mkv"], [⟨"aac", MediaKind.audio, true, true⟩],
          [⟨RequirementType.Audio ⟨some "eng"⟩, RequirementLevel.Ignore⟩,
           ⟨RequirementType.Audio ⟨none⟩, RequirementLevel.All⟩], false⟩
        [⟨0, some ⟨"mp3", MediaKind.audio, true, true⟩, some "eng"⟩]
        ⟨RequirementType.Audio ⟨some "eng"⟩, RequirementLevel.Ignore⟩).need_to_transcode
        = false
    ∧ (MediaFileTasks.new
        ⟨["mkv"], [⟨"aac", MediaKind.audio, true, true⟩],
          [⟨RequirementType.Audio ⟨some "eng"⟩, RequirementLevel.Ignore⟩,
           ⟨RequirementType.Audio ⟨none⟩, RequirementLevel.Ignore⟩], false⟩
        [⟨0, some ⟨"mp3", MediaKind.audio, true, true⟩, some "eng"⟩]).need_to_transcode
        ⟨[], "m.mkv"⟩ = false :=
  ⟨rfl, rfl, rfl⟩

/-- C3 counterexample: with an EMPTY supported-formats list and NO
requirements, a source with extension `mkv` still needs transcoding — the
container rule fires although every requirement verdict is (vacuously)
false, contradicting the claim that with empty supported-formats the file
needs transcoding iff some requirement verdict is true. -/
theorem empty_formats_forces_transcode_cex :
    (MediaFileTasks.new ⟨[], [], [], false⟩ []).need_to_transcode
        ⟨[], "movie.mkv"⟩ = true
    ∧ (MediaFileTasks.new ⟨[], [], [], false⟩ []).tasks.any
        (fun t => t.need_to_transcode) = false :=
  ⟨rfl, rfl⟩

/-- C3 amended: with an empty supported-formats list the container rule fires
exactly when the source file has an extension: the file needs transcoding iff
it has an extension or some requirement's verdict is true. -/
theorem empty_formats_decision (cfg : TranscoderConfig) (streams : List StreamInfo)
    (src : FsPath) (h : cfg.supported_formats = []) :
    (MediaFileTasks.new cfg streams).need_to_transcode src
      = ((get_format src).isSome
         || (MediaFileTasks.new cfg streams).tasks.any
              (fun t => t.need_to_transcode)) := by
  simp only [MediaFileTasks.need_to_transcode]
  cases hf : get_format src with
  | none => simp
  | some fmt => simp [MediaFileTasks.new, h]

/-- C3 amended witness: the empty-formats decision at a concrete policy and
source path. -/
theorem empty_formats_decision_witness :
    ((⟨[], [], [], false⟩ : TranscoderConfig).supported_formats = [])
    ∧ (MediaFileTasks.new ⟨[], [], [], false⟩ []).need_to_transcode ⟨[], "b.avi"⟩
        = ((get_format ⟨[], "b.avi"⟩).isSome
           || (MediaFileTasks.new ⟨[], [], [], false⟩ []).tasks.any
                (fun t => t.need_to_transcode)) :=
  ⟨rfl, empty_formats_decision ⟨[], [], [], false⟩ [] ⟨[], "b.avi"⟩ rfl⟩

theorem find_action_some (c : Codec) (l : List Codec) (a : TranscodeTaskType) :
    find_action c l (some a)
      = some (if c ∈ l then TranscodeTaskType.Supported else a) := by
  induction l with
  | nil => simp [find_action]
  | cons supp rest ih =>
    by_cases hc : c = supp
    · simp [find_action, hc]
    · simp only [find_action]
      rw [if_neg hc, if_neg (by rintro ⟨h1, -⟩; cases h1), ih]
      simp [List.mem_cons, hc]

theorem find_action_none (c : Codec) (l : List Codec) :
    find_action c l none
      = if c ∈ l then some TranscodeTaskType.Supported
        else (l.find? (fun supp => supp.medium == c.medium)).map
               TranscodeTaskType.Transcode := by
  induction l with
  | nil => simp [find_action]
  | cons supp rest ih =>
    by_cases hc : c = supp
    · simp [find_action, hc]
    · by_cases hm : supp.medium = c.medium
      · simp only [find_action]
        rw [if_neg hc, if_pos (by simp [hm]), find_action_some,
            List.find?_cons_of_pos _ (by simp [hm])]
        by_cases hr : c ∈ rest <;> simp [List.mem_cons, hc, hr]
      · simp only [find_action]
        rw [if_neg hc, if_neg (by rintro ⟨-, h2⟩; exact hm h2), ih,
            List.find?_cons_of_neg _ (by simp [hm])]
        simp [List.mem_cons, hc]

/-- C5 counterexample: (i) the scan does NOT check encodability — a
decoder-only supported codec of the right media kind is selected as the
transcode target; (ii) a stream matching no supported codec even by kind is
not dropped from the output — it still gets an output task that copies it. -/
theorem codec_selection_cex :
    TranscodeTask.new ⟨0, some ⟨"h264", MediaKind.video, true, true⟩, none⟩
        ⟨[], [⟨"rawdec", MediaKind.video, false, true⟩], [], false⟩
      = some ⟨0, TranscodeTaskType.Transcode ⟨"rawdec", MediaKind.video, false, true⟩⟩
    ∧ (⟨"rawdec", MediaKind.video, false, true⟩ : Codec).can_encode = false
    ∧ MediaOutputTasks.new
        (MediaFileTasks.new ⟨[], [⟨"x264", MediaKind.video, true, true⟩], [], false⟩
          [⟨0, some ⟨"mp3", MediaKind.audio, true, true⟩, none⟩])
        [⟨0, some ⟨"mp3", MediaKind.audio, true, true⟩, none⟩]
      = [⟨0, none⟩] :=
  ⟨rfl, rfl, rfl⟩

/-- C5 amended: (selection) when the stream's codec is known, the synthesized
task is `Supported` if some supported codec equals it; otherwise it is
`Transcode` of the FIRST supported codec of the same media kind, regardless
of encodability; otherwise no task is synthesized (the stream is omitted
from the plan). (output) every input stream receives an output task, so an
unplanned stream is copied to the output, not dropped. -/
theorem codec_selection_amended (cfg : TranscoderConfig) (s : StreamInfo)
    (c : Codec) (h : s.codec = some c) :
    (TranscodeTask.new s cfg
      = if c ∈ cfg.supported_codecs then some ⟨s.index, TranscodeTaskType.Supported⟩
        else (cfg.supported_codecs.find? (fun supp => supp.medium == c.medium)).map
               (fun supp => ⟨s.index, TranscodeTaskType.Transcode supp⟩))
    ∧ (∀ (mt : MediaFileTasks) (streams2 : List StreamInfo),
        (MediaOutputTasks.new mt streams2).map (fun o => o.input_index)
          = streams2.map (fun s2 => s2.index)) := by
  constructor
  · simp only [TranscodeTask.new, h, find_action_none]
    by_cases hmem : c ∈ cfg.supported_codecs
    · simp [hmem]
    · simp only [hmem, if_false, Option.map_map]
      rfl
  · intro mt streams2
    unfold MediaOutputTasks.new
    rw [List.map_map]
    rfl

/-- C5 amended witness: selection at a concrete stream whose codec is among
the supported codecs. -/
theorem codec_selection_amended_witness :
    ((⟨0, some ⟨"aac", MediaKind.audio, true, true⟩, none⟩ : StreamInfo).codec
        = some ⟨"aac", MediaKind.audio, true, true⟩)
    ∧ TranscodeTask.new ⟨0, some ⟨"aac", MediaKind.audio, true, true⟩, none⟩
        ⟨[], [⟨"aac", MediaKind.audio, true, true⟩], [], false⟩
      = some ⟨0, TranscodeTaskType.Supported⟩ :=
  ⟨rfl, by
    have h := (codec_selection_amended
      ⟨[], [⟨"aac", MediaKind.audio, true, true⟩], [], false⟩
      ⟨0, some ⟨"aac", MediaKind.audio, true, true⟩, none⟩
      ⟨"aac", MediaKind.audio, true, true⟩ rfl).1
    rw [if_pos (List.mem_singleton.mpr rfl)] at h
    exact h⟩

/-- C4: whenever transcoding is performed, the opened output path is the
destination with its extension replaced by the first supported format, and
the unchanged destination when the supported-formats list is empty — the
source indexes with `get(0)`, so the model is total and nothing panics. -/
theorem transcode_output_extension (cfg : TranscoderConfig)
    (streams : List StreamInfo) (src dst : FsPath) (backend_ok : Bool)
    (h : (MediaFileTasks.new cfg streams).need_to_transcode src = true) :
    (cfg.supported_formats = [] →
      (input_transcode cfg streams src dst backend_ok).output_opened = some dst)
    ∧ (∀ e rest, cfg.supported_formats = e :: rest →
      (input_transcode cfg streams src dst backend_ok).output_opened
        = some (dst.with_extension e)) := by
  have key : (input_transcode cfg streams src dst backend_ok).output_opened
      = some (match cfg.supported_formats.head? with
              | some ext => dst.with_extension ext
              | none => dst) := by
    cases backend_ok <;> by_cases hb : cfg.backup_symlink = true <;>
      simp [input_transcode, h, hb]
  constructor
  · intro he
    rw [key, he]
    rfl
  · intro e rest he
    rw [key, he]
    rfl

/-- C4 witness: with empty supported-formats and a source whose extension
forces the container rule, the output path is the destination unchanged. -/
theorem transcode_output_extension_witness :
    (MediaFileTasks.new ⟨[], [], [], false⟩ []).need_to_transcode
        ⟨[], "a.mkv"⟩ = true
    ∧ (input_transcode ⟨[], [], [], false⟩ [] ⟨[], "a.mkv"⟩ ⟨["d"], "a.mkv"⟩
        true).output_opened = some ⟨["d"], "a.mkv"⟩ :=
  ⟨rfl,
    (transcode_output_extension ⟨[], [], [], false⟩ [] ⟨[], "a.mkv"⟩
      ⟨["d"], "a.mkv"⟩ true rfl).1 rfl⟩

/-- C6: when the backend transcode step fails, the partial output at the
extension-rewritten destination is removed, a symlink at the original
destination pointing to the source is created exactly when `backup_symlink`
is enabled, and the failure is returned to the caller. -/
theorem transcode_failure_cleanup (cfg : TranscoderConfig)
    (streams : List StreamInfo) (src dst : FsPath)
    (h : (MediaFileTasks.new cfg streams).need_to_transcode src = true) :
    (input_transcode cfg streams src dst false).removed
      = [match cfg.supported_formats.head? with
         | some ext => dst.with_extension ext
         | none => dst]
    ∧ (input_transcode cfg streams src dst false).symlinks
      = (if cfg.backup_symlink then [(dst, src)] else [])
    ∧ (input_transcode cfg streams src dst false).ok = false := by
  by_cases hb : cfg.backup_symlink = true <;>
    refine ⟨?_, ?_, ?_⟩ <;> simp [input_transcode, h, hb]

/-- C6 witness: a concrete failing run with `backup_symlink` disabled —
the partial output is removed, no symlink is made, failure is returned. -/
theorem transcode_failure_cleanup_witness :
    (MediaFileTasks.new ⟨[], [], [], false⟩ []).need_to_transcode
        ⟨[], "a.mkv"⟩ = true
    ∧ (input_transcode ⟨[], [], [], false⟩ [] ⟨[], "a.mkv"⟩ ⟨["d"], "a.mkv"⟩
        false).removed = [⟨["d"], "a.mkv"⟩]
    ∧ (input_transcode ⟨[], [], [], false⟩ [] ⟨[], "a.mkv"⟩ ⟨["d"], "a.mkv"⟩
        false).symlinks = []
    ∧ (input_transcode ⟨[], [], [], false⟩ [] ⟨[], "a.mkv"⟩ ⟨["d"], "a.mkv"⟩
        false).ok = false :=
  ⟨rfl,
    (transcode_failure_cleanup ⟨[], [], [], false⟩ [] ⟨[], "a.mkv"⟩
      ⟨["d"], "a.mkv"⟩ rfl).1,
    (transcode_failure_cleanup ⟨[], [], [], false⟩ [] ⟨[], "a.mkv"⟩
      ⟨["d"], "a.mkv"⟩ rfl).2.1,
    (transcode_failure_cleanup ⟨[], [], [], false⟩ [] ⟨[], "a.mkv"⟩
      ⟨["d"], "a.mkv"⟩ rfl).2.2⟩

/-- C7: when the probe fails the file is handled by the link branch
unconditionally — parent directories prepared and a symlink at the
destination pointing to the source — whatever the policy, stream inventory
and backend outcome are, so the policy decision engine is never consulted. -/
theorem probe_failure_symlinks (cfg : TranscoderConfig) (streams : List StreamInfo)
    (src dst : FsPath) (backend_ok : Bool) :
    media_file_transcode false cfg streams src dst backend_ok
      = { dirs_prepared := [dst], output_opened := none, removed := [],
          symlinks := [(dst, src)], ok := true } := rfl

end Transcoder

namespace Watcher

/-- C9: with `check_exists = true` and an existing destination every
dispatched create event is skipped, and consequently a bootstrap pass over an
up-to-date destination performs zero link/transcode (or remove) operations. -/
theorem bootstrap_skip_existing (src dst : List String)
    (dst_exists : List String → Bool) (h : ∀ p, dst_exists p = true) :
    (∀ (f : List String) (meta : Option Bool),
        do_action EventKind.create f src dst true meta dst_exists
          = WatchAction.skip)
    ∧ (∀ (files : List (List String)) (meta : List String → Option Bool),
        bootstrap_actions files src dst meta dst_exists
          = files.map (fun _ => WatchAction.skip)) := by
  have single : ∀ (f : List String) (meta : Option Bool),
      do_action EventKind.create f src dst true meta dst_exists
        = WatchAction.skip := by
    intro f meta
    unfold do_action
    cases strip_root f src with
    | none => rfl
    | some suffix =>
      by_cases hd : dst ++ suffix = f
      · simp [hd]
      · cases hm : is_dir meta <;> simp [hd, hm, h (dst ++ suffix)]
  refine ⟨single, ?_⟩
  intro files meta
  unfold bootstrap_actions
  exact List.map_congr_left (fun f _ => single f (meta f))

/-- C9 witness: a concrete bootstrap create event over an all-existing
destination is skipped. -/
theorem bootstrap_skip_existing_witness :
    do_action EventKind.create ["s", "x"] ["s"] ["d"] true none (fun _ => true)
      = WatchAction.skip :=
  (bootstrap_skip_existing ["s"] ["d"] (fun _ => true) (fun _ => rfl)).1
    ["s", "x"] none

/-- C10: a create, moved-to or close-write event whose metadata query failed
is treated as a directory and skipped: no destination entry is created or
modified. -/
theorem metadata_error_event_ignored (event : EventKind) (f src dst : List String)
    (check_exists : Bool) (dst_exists : List String → Bool)
    (h : event = EventKind.create ∨ event = EventKind.movedTo
      ∨ event = EventKind.closeWrite) :
    do_action event f src dst check_exists none dst_exists = WatchAction.skip := by
  unfold do_action
  cases strip_root f src with
  | none => rfl
  | some suffix =>
    by_cases hd : dst ++ suffix = f
    · simp [hd]
    · rcases h with h | h | h <;> subst h <;> simp [hd, is_dir]

/-- C10 witness: a concrete create event with a failed metadata query is
skipped. -/
theorem metadata_error_event_ignored_witness :
    do_action EventKind.create ["s", "y"] ["s"] ["d"] false none (fun _ => false)
      = WatchAction.skip :=
  metadata_error_event_ignored EventKind.create ["s", "y"] ["s"] ["d"] false
    (fun _ => false) (Or.inl rfl)

end Watcher
